import Mathlib

/-!
Verification of GitSmart's repository-state watcher, prompt-interrupt
bridge, suspend/resume guard and MCP operation coordinator.

The definitions below are shallow embeddings of the corresponding Python
code in `GitSmart/main.py` and `GitSmart/mcp_server.py`; each definition's
doc comment names the function or class it embeds.
-/

/-- One per-file entry of the lists returned by `get_status()` (a Python
dict); `check_for_changes` accesses the keys `file`, `additions` and
`deletions` via `dict.get` with defaults, so each field is optional. -/
structure FileEntry where
  file : Option String
  additions : Option Nat
  deletions : Option Nat
  deriving DecidableEq

/-- A Python dict mapping a file path to its `(additions, deletions)`
pair; Python dict equality is key-set plus per-key value equality,
which is exactly `Finmap` equality. -/
abbrev FileMap := Finmap (fun _ : String => Nat × Nat)

/-- The dict comprehension
`{f.get('file', ''): (f.get('additions', 0), f.get('deletions', 0)) for f in fs}`
from `check_for_changes` (GitSmart/main.py lines 128-129); a later
entry with the same key overwrites an earlier one, as in Python. -/
def toFileMap (fs : List FileEntry) : FileMap :=
  fs.foldl
    (fun m f => m.insert (f.file.getD "") (f.additions.getD 0, f.deletions.getD 0)) ∅

/-- The staged/unstaged file lists of the tuple returned by `get_status()`
(its other two components are unused by `check_for_changes`). -/
structure GitStatus where
  staged : List FileEntry
  unstaged : List FileEntry
  deriving DecidableEq

/-- The detector's recorded state: the closure variables
`last_staged_state` / `last_unstaged_state` of `main()`
(both initialized to `None`, GitSmart/main.py lines 76-77). -/
structure DetectorState where
  last_staged_state : Option FileMap
  last_unstaged_state : Option FileMap
  deriving DecidableEq

/-- `check_for_changes()` (GitSmart/main.py lines 121-160).  The
`get_status()` call is passed in as an `Except` value: `.error` models
the call raising.  Returns the updated recorded state together with the
returned boolean.  On an exception the function logs and returns
`False` with the recorded state untouched; on first invocation (either
recorded map still `None`) it records the baseline and returns `False`;
otherwise it compares both current maps with the recorded ones by dict
equality, updates the recorded state when they differ, and returns
whether they differ. -/
def check_for_changes (st : DetectorState) (q : Except String GitStatus) :
    DetectorState × Bool :=
  match q with
  | .error _ => (st, false)
  | .ok status =>
      let current_staged_files := toFileMap status.staged
      let current_unstaged_files := toFileMap status.unstaged
      match st.last_staged_state, st.last_unstaged_state with
      | none, _ =>
          ({ last_staged_state := some current_staged_files,
             last_unstaged_state := some current_unstaged_files }, false)
      | _, none =>
          ({ last_staged_state := some current_staged_files,
             last_unstaged_state := some current_unstaged_files }, false)
      | some ls, some lu =>
          let changed : Bool :=
            decide (current_staged_files ≠ ls) || decide (current_unstaged_files ≠ lu)
          (if changed then
            { last_staged_state := some current_staged_files,
              last_unstaged_state := some current_unstaged_files }
           else st, changed)

/-- C2: with both recorded maps still nil, a successful change check
records the observed snapshot as baseline and returns `changed = false`,
whatever the repository contents are. -/
theorem detector_first_check_baseline (st : DetectorState) (status : GitStatus)
    (h1 : st.last_staged_state = none) (h2 : st.last_unstaged_state = none) :
    check_for_changes st (Except.ok status) =
      ({ last_staged_state := some (toFileMap status.staged),
         last_unstaged_state := some (toFileMap status.unstaged) }, false) := by
  obtain ⟨a, b⟩ := st
  simp only at h1 h2
  subst h1; subst h2
  rfl

/-- Witness for `detector_first_check_baseline` at a concrete input. -/
theorem detector_first_check_baseline_witness :
    (DetectorState.mk none none).last_staged_state = none ∧
    (DetectorState.mk none none).last_unstaged_state = none ∧
    check_for_changes (DetectorState.mk none none)
        (Except.ok (GitStatus.mk [FileEntry.mk (some "a.txt") (some 3) (some 1)] [])) =
      ({ last_staged_state :=
           some (toFileMap [FileEntry.mk (some "a.txt") (some 3) (some 1)]),
         last_unstaged_state := some (toFileMap []) }, false) :=
  ⟨rfl, rfl,
    detector_first_check_baseline (DetectorState.mk none none)
      (GitStatus.mk [FileEntry.mk (some "a.txt") (some 3) (some 1)] []) rfl rfl⟩

/-- C3: once a baseline is recorded, the change check reports
`changed = true` exactly when the current staged map or the current
unstaged map differs from the recorded one — and map equality is
extensional (same keys, same per-key counts), so any key added,
removed, moved between the maps, or any count changed flips it to
`true`, while identical maps give `false`. -/
theorem detector_change_iff (st : DetectorState) (status : GitStatus)
    (ls lu : FileMap)
    (h1 : st.last_staged_state = some ls) (h2 : st.last_unstaged_state = some lu) :
    ((check_for_changes st (Except.ok status)).2 = true ↔
        ¬(toFileMap status.staged = ls ∧ toFileMap status.unstaged = lu)) ∧
    (toFileMap status.staged = ls ↔
        ∀ k, (toFileMap status.staged).lookup k = ls.lookup k) := by
  obtain ⟨a, b⟩ := st
  simp only at h1 h2
  subst h1; subst h2
  constructor
  · show (decide (toFileMap status.staged ≠ ls)
        || decide (toFileMap status.unstaged ≠ lu)) = true ↔ _
    simp only [Bool.or_eq_true, decide_eq_true_eq]
    tauto
  · constructor
    · intro h k; rw [h]
    · intro h; exact Finmap.ext_lookup h

/-- Witness for `detector_change_iff` at a concrete input. -/
theorem detector_change_iff_witness :
    (DetectorState.mk (some (toFileMap [FileEntry.mk (some "a.txt") (some 3) (some 1)]))
        (some (toFileMap []))).last_staged_state =
      some (toFileMap [FileEntry.mk (some "a.txt") (some 3) (some 1)]) ∧
    (((check_for_changes
          (DetectorState.mk
            (some (toFileMap [FileEntry.mk (some "a.txt") (some 3) (some 1)]))
            (some (toFileMap [])))
          (Except.ok (GitStatus.mk [FileEntry.mk (some "a.txt") (some 4) (some 1)] []))).2 =
        true ↔
        ¬(toFileMap [FileEntry.mk (some "a.txt") (some 4) (some 1)] =
            toFileMap [FileEntry.mk (some "a.txt") (some 3) (some 1)] ∧
          toFileMap [] = toFileMap [])) ∧
      (toFileMap [FileEntry.mk (some "a.txt") (some 4) (some 1)] =
          toFileMap [FileEntry.mk (some "a.txt") (some 3) (some 1)] ↔
        ∀ k, (toFileMap [FileEntry.mk (some "a.txt") (some 4) (some 1)]).lookup k =
          (toFileMap [FileEntry.mk (some "a.txt") (some 3) (some 1)]).lookup k)) :=
  ⟨rfl,
    detector_change_iff
      (DetectorState.mk
        (some (toFileMap [FileEntry.mk (some "a.txt") (some 3) (some 1)]))
        (some (toFileMap [])))
      (GitStatus.mk [FileEntry.mk (some "a.txt") (some 4) (some 1)] [])
      (toFileMap [FileEntry.mk (some "a.txt") (some 3) (some 1)])
      (toFileMap []) rfl rfl⟩

/-- C6: when the underlying `get_status()` query raises, the change
check returns `changed = false` and leaves the recorded last-snapshot
state unchanged; the failure is swallowed, not propagated. -/
theorem detector_query_failure_swallowed (st : DetectorState) (msg : String) :
    check_for_changes st (Except.error msg) = (st, false) :=
  rfl

/-- The flag values the `auto_refresh_worker` loop body reads after its
interruptible sleep (GitSmart/main.py lines 184-204).  The worker
re-reads `auto_refresh_active` and `shutdown_requested.is_set()` at
several points because suspension may happen concurrently; each field
records the value observed at the corresponding read. -/
structure CycleReads where
  active_outer : Bool
  shutdown_outer : Bool
  active_check : Bool
  active_send : Bool
  shutdown_send : Bool
  deriving DecidableEq

/-- The externally visible effects of one worker loop body:
whether `menu_needs_refresh.set()` ran, and whether
`os.kill(os.getpid(), SIGUSR1)` ran. -/
structure CycleEffects where
  menu_needs_refresh_set : Bool
  sigusr1_sent : Bool
  deriving DecidableEq

/-- The body of one `auto_refresh_worker` poll cycle after the sleep
(GitSmart/main.py lines 184-204): if the outer guard passes, it
evaluates `auto_refresh_active and check_for_changes()`
(short-circuit: the detector runs only when the flag read is true); on
a detected change it sets the refresh flag and sends SIGUSR1, the send
itself guarded once more by `auto_refresh_active` and shutdown. -/
def poll_cycle (r : CycleReads) (st : DetectorState) (q : Except String GitStatus) :
    DetectorState × CycleEffects :=
  if r.active_outer && !r.shutdown_outer then
    if r.active_check then
      let res := check_for_changes st q
      if res.2 then
        (res.1, { menu_needs_refresh_set := true,
                  sigusr1_sent := r.active_send && !r.shutdown_send })
      else (res.1, { menu_needs_refresh_set := false, sigusr1_sent := false })
    else (st, { menu_needs_refresh_set := false, sigusr1_sent := false })
  else (st, { menu_needs_refresh_set := false, sigusr1_sent := false })

/-- C1: when the controller is suspended (`auto_refresh_active` read as
false) at the point where the poll's result would be acted upon, the
cycle sends no SIGUSR1 and sets no pending-refresh flag, whatever the
detector would have reported. -/
theorem poll_cycle_suspended_mute (r : CycleReads) (st : DetectorState)
    (q : Except String GitStatus) (h : r.active_check = false) :
    (poll_cycle r st q).2 =
      { menu_needs_refresh_set := false, sigusr1_sent := false } := by
  unfold poll_cycle
  rw [h]
  split <;> rfl

/-- Witness for `poll_cycle_suspended_mute` at a concrete input: the
worker is running, not shutting down, and a change is in fact present,
yet suspension mutes both effects. -/
theorem poll_cycle_suspended_mute_witness :
    (CycleReads.mk true false false true false).active_check = false ∧
    (poll_cycle (CycleReads.mk true false false true false)
        (DetectorState.mk (some (toFileMap [])) (some (toFileMap [])))
        (Except.ok (GitStatus.mk [FileEntry.mk (some "a.txt") (some 3) (some 1)] []))).2 =
      { menu_needs_refresh_set := false, sigusr1_sent := false } :=
  ⟨rfl,
    poll_cycle_suspended_mute (CycleReads.mk true false false true false)
      (DetectorState.mk (some (toFileMap [])) (some (toFileMap [])))
      (Except.ok (GitStatus.mk [FileEntry.mk (some "a.txt") (some 3) (some 1)] []))
      rfl⟩

/-- The controller's state-machine phases: `Running` after
`start_auto_refresh()` set `auto_refresh_active = True`; `Suspended`
while `AutoRefreshSuspender.__enter__` has set it to `False`; `Stopped`
after `stop_auto_refresh()` set it to `False`. -/
inductive ControllerPhase where
  | Stopped
  | Running
  | Suspended
  deriving DecidableEq

/-- The value the shared flag `auto_refresh_active` holds in each phase,
as established by `start_auto_refresh` (line 231),
`AutoRefreshSuspender.__enter__` (line 273) and `stop_auto_refresh`
(line 247) in GitSmart/main.py. -/
def ControllerPhase.activeFlag : ControllerPhase → Bool
  | .Running => true
  | .Stopped => false
  | .Suspended => false

/-- Outcome of `_refresh_signal_handler`: either it raises
`RefreshMenuException` or it only logs and returns. -/
inductive HandlerResult where
  | raised
  | ignored
  deriving DecidableEq

/-- `_refresh_signal_handler` (GitSmart/main.py lines 107-115): on
SIGUSR1 it raises `RefreshMenuException` if `auto_refresh_active` is
true, otherwise it ignores the delivery. -/
def refresh_signal_handler (auto_refresh_active : Bool) : HandlerResult :=
  if auto_refresh_active then HandlerResult.raised else HandlerResult.ignored

/-- C4: the handler's own delivery-time guard raises the refresh
control-flow exception exactly when the controller is `Running`; in
`Stopped` or `Suspended` phase the delivered interrupt is ignored and
no exception is raised. -/
theorem signal_handler_guard (p : ControllerPhase) :
    refresh_signal_handler p.activeFlag = HandlerResult.raised ↔
      p = ControllerPhase.Running := by
  cases p <;> simp [refresh_signal_handler, ControllerPhase.activeFlag]

/-- The `was_active` attribute recorded by `AutoRefreshSuspender.__init__`
/ `__enter__`. -/
structure SuspenderToken where
  was_active : Bool
  deriving DecidableEq

/-- `AutoRefreshSuspender.__enter__` (GitSmart/main.py lines 267-274):
records `was_active := auto_refresh_active` and, if it was active,
clears the flag; returns the token and the new flag value. -/
def suspender_enter (auto_refresh_active : Bool) : SuspenderToken × Bool :=
  ({ was_active := auto_refresh_active },
   if auto_refresh_active then false else auto_refresh_active)

/-- `AutoRefreshSuspender.__exit__` (GitSmart/main.py lines 276-281),
which Python runs on every exit path of the `with` block, exceptional
ones included: if `was_active`, set the flag back to true, else leave
it alone. -/
def suspender_exit (tok : SuspenderToken) (auto_refresh_active : Bool) : Bool :=
  if tok.was_active then true else auto_refresh_active

/-- A body executed under the suspender guard, as far as the
`auto_refresh_active` flag is concerned: it may do nothing, sequence two
sub-bodies, or open a further nested suspender scope (the `scope` node). -/
inductive GuardBody where
  | skip
  | seq (p q : GuardBody)
  | scope (body : GuardBody)

/-- Runs a guard body on the current `auto_refresh_active` value; a
`scope` node performs `__enter__`, runs its body, then `__exit__` with
the recorded token. -/
def runBody : GuardBody → Bool → Bool
  | .skip, a => a
  | .seq p q, a => runBody q (runBody p a)
  | .scope body, a =>
      let ent := suspender_enter a
      suspender_exit ent.1 (runBody body ent.2)

/-- Inside a suspender scope the flag is false, and any balanced nesting
of further scopes keeps it false. -/
theorem runBody_false (p : GuardBody) : runBody p false = false := by
  induction p with
  | skip => rfl
  | seq p q ihp ihq => simp [runBody, ihp, ihq]
  | scope body ih => simp [runBody, suspender_enter, suspender_exit, ih]

/-- C8: the suspend/resume scoped guard is a round-trip on
`auto_refresh_active`: whatever the flag's value at entry, entering and
then exiting the guard — on any exit path, with any balanced nesting of
further guards inside, tracked by the `was_active` flag rather than a
counter — restores the flag to exactly its entry value. -/
theorem suspender_round_trip (body : GuardBody) (a : Bool) :
    runBody (GuardBody.scope body) a = a := by
  cases a <;>
    simp [runBody, suspender_enter, suspender_exit, runBody_false body]

/-- The controller state touched by `stop_auto_refresh`: the
`auto_refresh_active` flag, the `refresh_thread` handle (`None` or a
thread), and whether `shutdown_requested` is set. -/
structure ControllerState where
  auto_refresh_active : Bool
  refresh_thread : Option Unit
  shutdown_requested : Bool
  deriving DecidableEq

/-- `stop_auto_refresh()` (GitSmart/main.py lines 240-260): if the flag
is set, clear it, set the shutdown event, best-effort join the thread
(exceptions swallowed) and drop the handle; otherwise do nothing. -/
def stop_auto_refresh (s : ControllerState) : ControllerState :=
  if s.auto_refresh_active then
    { auto_refresh_active := false,
      refresh_thread := none,
      shutdown_requested := true }
  else s

/-- C9: `stop_auto_refresh` is idempotent — a second call on an
already-stopped controller is a no-op that leaves the active flag,
thread handle and shutdown event exactly as the first call left them. -/
theorem stop_auto_refresh_idempotent (s : ControllerState) :
    stop_auto_refresh (stop_auto_refresh s) = stop_auto_refresh s := by
  by_cases h : s.auto_refresh_active = true <;>
    simp [stop_auto_refresh, h]

/-- `MCPOperationState` (GitSmart/mcp_server.py lines 45-77): the
operation counter (a Python int), the set-state of the
`operation_in_progress` threading.Event, and the diagnostic
`current_operation` label. -/
structure MCPOperationState where
  operation_count : Int
  operation_in_progress : Bool
  current_operation : Option String
  deriving DecidableEq

/-- `MCPOperationState.__init__`: count 0, event cleared, no label. -/
def MCPOperationState.init : MCPOperationState :=
  { operation_count := 0, operation_in_progress := false, current_operation := none }

/-- `MCPOperationState.start_operation` (mcp_server.py lines 53-59):
increments the count, records the label, sets the event. -/
def start_operation (st : MCPOperationState) (operation_name : String) :
    MCPOperationState :=
  { operation_count := st.operation_count + 1,
    operation_in_progress := true,
    current_operation := some operation_name }

/-- `MCPOperationState.end_operation` (mcp_server.py lines 61-68):
sets count to `max(0, count - 1)`; when the new count is zero it clears
the event and the label. -/
def end_operation (st : MCPOperationState) (_operation_name : String) :
    MCPOperationState :=
  if max 0 (st.operation_count - 1) = 0 then
    { operation_count := max 0 (st.operation_count - 1),
      operation_in_progress := false, current_operation := none }
  else
    { st with operation_count := max 0 (st.operation_count - 1) }


/-- `MCPOperationState.is_operation_in_progress` (mcp_server.py lines
70-72): reads the event's set-state. -/
def is_operation_in_progress (st : MCPOperationState) : Bool :=
  st.operation_in_progress

/-- One call made through the `MCPOperation` context manager
(mcp_server.py lines 106-117): its `__enter__` is `start_operation`,
its `__exit__` (run on every exit path) is `end_operation`. -/
inductive MCPOp where
  | begin_op (name : String)
  | end_op (name : String)
  deriving DecidableEq

/-- Applies a sequence of begin/end calls to the shared state. -/
def runOps (st : MCPOperationState) : List MCPOp → MCPOperationState
  | [] => st
  | MCPOp.begin_op n :: rest => runOps (start_operation st n) rest
  | MCPOp.end_op n :: rest => runOps (end_operation st n) rest

/-- Number of begin calls in a sequence. -/
def beginCount : List MCPOp → Nat
  | [] => 0
  | MCPOp.begin_op _ :: rest => beginCount rest + 1
  | MCPOp.end_op _ :: rest => beginCount rest

/-- Number of end calls in a sequence. -/
def endCount : List MCPOp → Nat
  | [] => 0
  | MCPOp.begin_op _ :: rest => endCount rest
  | MCPOp.end_op _ :: rest => endCount rest + 1

/-- `matchedFrom c ops` holds when, starting from `c` operations already
open, every end call in `ops` matches a prior begin (no prefix closes
more operations than were opened). -/
def matchedFrom : Int → List MCPOp → Bool
  | _, [] => true
  | c, MCPOp.begin_op _ :: rest => matchedFrom (c + 1) rest
  | c, MCPOp.end_op _ :: rest => decide (1 ≤ c) && matchedFrom (c - 1) rest
/-- Invariant carried through any matched sequence of begin/end calls:
the count tracks begins minus ends, stays non-negative, and the event is
set exactly when the count is positive. -/
theorem runOps_inv (ops : List MCPOp) : ∀ st : MCPOperationState,
    0 ≤ st.operation_count →
    st.operation_in_progress = decide (0 < st.operation_count) →
    matchedFrom st.operation_count ops = true →
    (runOps st ops).operation_count =
        st.operation_count + (beginCount ops : Int) - (endCount ops : Int) ∧
    0 ≤ (runOps st ops).operation_count ∧
    (runOps st ops).operation_in_progress =
        decide (0 < (runOps st ops).operation_count) := by
  induction ops with
  | nil =>
      intro st h0 hev _
      simp [runOps, beginCount, endCount, h0, hev]
  | cons op rest ih =>
      intro st h0 hev hm
      cases op with
      | begin_op n =>
          simp only [matchedFrom] at hm
          have h1 : (start_operation st n).operation_count =
              st.operation_count + 1 := rfl
          have hpos1 : (0 : Int) < st.operation_count + 1 := by omega
          obtain ⟨hc, hnn, hip⟩ := ih (start_operation st n)
            (by rw [h1]; omega)
            (by
              show true = decide (0 < st.operation_count + 1)
              simp [hpos1])
            (by rw [h1]; exact hm)
          refine ⟨?_, hnn, hip⟩
          rw [show runOps st (MCPOp.begin_op n :: rest) =
              runOps (start_operation st n) rest from rfl, hc, h1]
          simp only [beginCount, endCount]
          push_cast
          ring
      | end_op n =>
          simp only [matchedFrom, Bool.and_eq_true, decide_eq_true_eq] at hm
          obtain ⟨hge, hm'⟩ := hm
          have hmax : max 0 (st.operation_count - 1) = st.operation_count - 1 := by
            omega
          have h1 : (end_operation st n).operation_count =
              st.operation_count - 1 := by
            unfold end_operation
            split_ifs <;> simp [hmax]
          have h2 : (end_operation st n).operation_in_progress =
              decide (0 < (end_operation st n).operation_count) := by
            unfold end_operation
            split_ifs with h
            · simp [h]
            · rw [hmax] at h
              have hpos : (0 : Int) < st.operation_count - 1 := by omega
              have hpos2 : (0 : Int) < st.operation_count := by omega
              simp [hmax, hpos, hev, hpos2]
          obtain ⟨hc, hnn, hip⟩ := ih (end_operation st n)
            (by rw [h1]; omega)
            h2
            (by rw [h1]; exact hm')
          refine ⟨?_, hnn, hip⟩
          rw [show runOps st (MCPOp.end_op n :: rest) =
              runOps (end_operation st n) rest from rfl, hc, h1]
          simp only [beginCount, endCount]
          push_cast
          ring

/-- C5: for any sequence of begin/end calls in which each end matches a
prior begin, the ledger keeps `count ≥ 0`, keeps the in-progress event
asserted exactly while `count > 0`, and `is_operation_in_progress` is
false exactly when the number of begins equals the number of ends. -/
theorem mcp_operation_balance (ops : List MCPOp)
    (h : matchedFrom 0 ops = true) :
    0 ≤ (runOps MCPOperationState.init ops).operation_count ∧
    (is_operation_in_progress (runOps MCPOperationState.init ops) = true ↔
      0 < (runOps MCPOperationState.init ops).operation_count) ∧
    (is_operation_in_progress (runOps MCPOperationState.init ops) = false ↔
      beginCount ops = endCount ops) := by
  obtain ⟨hc, hnn, hip⟩ := runOps_inv ops MCPOperationState.init
    (by decide) (by decide) h
  rw [show MCPOperationState.init.operation_count = (0 : Int) from rfl] at hc
  refine ⟨hnn, ?_, ?_⟩
  · simp only [is_operation_in_progress]
    rw [hip]
    simp
  · simp only [is_operation_in_progress]
    rw [hip]
    simp only [decide_eq_false_iff_not, not_lt]
    constructor
    · intro hle
      omega
    · intro heq
      omega

/-- Witness for `mcp_operation_balance`: three overlapping begins and
two ends leave an operation in flight. -/
theorem mcp_operation_balance_witness :
    matchedFrom 0
        [MCPOp.begin_op "stage", MCPOp.begin_op "commit", MCPOp.begin_op "unstage",
         MCPOp.end_op "stage", MCPOp.end_op "commit"] = true ∧
    (0 ≤ (runOps MCPOperationState.init
        [MCPOp.begin_op "stage", MCPOp.begin_op "commit", MCPOp.begin_op "unstage",
         MCPOp.end_op "stage", MCPOp.end_op "commit"]).operation_count ∧
    (is_operation_in_progress (runOps MCPOperationState.init
        [MCPOp.begin_op "stage", MCPOp.begin_op "commit", MCPOp.begin_op "unstage",
         MCPOp.end_op "stage", MCPOp.end_op "commit"]) = true ↔
      0 < (runOps MCPOperationState.init
        [MCPOp.begin_op "stage", MCPOp.begin_op "commit", MCPOp.begin_op "unstage",
         MCPOp.end_op "stage", MCPOp.end_op "commit"]).operation_count) ∧
    (is_operation_in_progress (runOps MCPOperationState.init
        [MCPOp.begin_op "stage", MCPOp.begin_op "commit", MCPOp.begin_op "unstage",
         MCPOp.end_op "stage", MCPOp.end_op "commit"]) = false ↔
      beginCount
        [MCPOp.begin_op "stage", MCPOp.begin_op "commit", MCPOp.begin_op "unstage",
         MCPOp.end_op "stage", MCPOp.end_op "commit"] =
      endCount
        [MCPOp.begin_op "stage", MCPOp.begin_op "commit", MCPOp.begin_op "unstage",
         MCPOp.end_op "stage", MCPOp.end_op "commit"])) :=
  ⟨by decide,
    mcp_operation_balance
      [MCPOp.begin_op "stage", MCPOp.begin_op "commit", MCPOp.begin_op "unstage",
       MCPOp.end_op "stage", MCPOp.end_op "commit"] (by decide)⟩

/-- The guard `if timeout and (time.time() - start_time) > timeout`
inside `wait_for_operations_to_complete` (mcp_server.py line 85): a
`None` timeout and a `0` timeout are falsy in Python, so the guard
fires only for a nonzero timeout that the elapsed time strictly
exceeds. -/
def timeout_exceeded : Option ℚ → ℚ → Bool
  | none, _ => false
  | some x, elapsed => decide (x ≠ 0) && decide (x < elapsed)

/-- The polling loop of `MCPOperationState.wait_for_operations_to_complete`
(mcp_server.py lines 79-88), step-indexed: `inProg k` is what
`operation_in_progress.is_set()` returns at the k-th check, `clock k`
the elapsed `time.time() - start_time` at that check; each iteration
that neither observes a cleared event nor a fired timeout guard sleeps
and re-checks.  `fuel` bounds how many checks are unrolled; `none`
means the call is still blocked after `fuel` checks. -/
def wait_loop (inProg : Nat → Bool) (timeout : Option ℚ) (clock : Nat → ℚ) :
    Nat → Nat → Option Bool
  | 0, _ => none
  | fuel + 1, k =>
    if inProg k = false then some true
    else if timeout_exceeded timeout (clock k) then some false
    else wait_loop inProg timeout clock fuel (k + 1)

/-- `wait_for_operations_to_complete(timeout)` (mcp_server.py lines
79-88): the initial `is_set()` check and the subsequent while loop are
together the polling loop started at check 0; the function returns
`True` when the event is observed clear and `False` when the timeout
guard fires. -/
def wait_for_operations_to_complete (inProg : Nat → Bool) (timeout : Option ℚ)
    (clock : Nat → ℚ) (fuel : Nat) : Option Bool :=
  wait_loop inProg timeout clock fuel 0

/-- When the polling loop terminates, it returned `true` exactly when
some check from `k` on observed the event clear, with every earlier
check (from `k` on) observing it set and the timeout guard not fired. -/
theorem wait_loop_true_iff (inProg : Nat → Bool) (timeout : Option ℚ)
    (clock : Nat → ℚ) :
    ∀ (fuel k : Nat) (b : Bool), wait_loop inProg timeout clock fuel k = some b →
    (b = true ↔ ∃ m, k ≤ m ∧ inProg m = false ∧
      ∀ j, k ≤ j → j < m →
        inProg j = true ∧ timeout_exceeded timeout (clock j) = false) := by
  intro fuel
  induction fuel with
  | zero => intro k b h; simp [wait_loop] at h
  | succ fuel ih =>
      intro k b h
      by_cases h1 : inProg k = false
      · simp only [wait_loop, if_pos h1] at h
        have hb : b = true := by injection h with h; exact h.symm
        subst hb
        constructor
        · intro _
          exact ⟨k, le_refl k, h1, fun j hkj hjk => absurd hjk (by omega)⟩
        · intro _; rfl
      · have h1' : inProg k = true := by
          cases hik : inProg k with
          | false => exact absurd hik h1
          | true => rfl
        by_cases h2 : timeout_exceeded timeout (clock k) = true
        · simp only [wait_loop, if_neg h1, if_pos h2] at h
          have hb : b = false := by injection h with h; exact h.symm
          subst hb
          constructor
          · intro hfb; exact absurd hfb (by simp)
          · rintro ⟨m, hkm, hm, hall⟩
            rcases Nat.eq_or_lt_of_le hkm with heq | hlt
            · rw [← heq] at hm; rw [h1'] at hm; exact absurd hm (by simp)
            · have := (hall k (le_refl k) hlt).2
              rw [h2] at this; exact absurd this (by simp)
        · have h2' : timeout_exceeded timeout (clock k) = false := by
            cases hte : timeout_exceeded timeout (clock k) with
            | false => rfl
            | true => exact absurd hte h2
          simp only [wait_loop, if_neg h1, if_neg h2] at h
          rw [ih (k + 1) b h]
          constructor
          · rintro ⟨m, hkm, hm, hall⟩
            refine ⟨m, by omega, hm, fun j hkj hjm => ?_⟩
            rcases Nat.eq_or_lt_of_le hkj with heq | hlt
            · rw [← heq]; exact ⟨h1', h2'⟩
            · exact hall j (by omega) hjm
          · rintro ⟨m, hkm, hm, hall⟩
            have hmk : k ≠ m := by
              intro he; rw [← he] at hm; rw [h1'] at hm
              exact absurd hm (by simp)
            refine ⟨m, by omega, hm, fun j hkj hjm => hall j (by omega) hjm⟩

/-- C7: a terminating call of `wait_for_operations_to_complete` returns
`True` exactly when some check observed the operation count at zero
(the in-progress event clear) with every earlier check finding the
event still set and the timeout guard not yet fired — in particular it
returns `True` immediately when no operation is in progress, and
`False` only when the timeout guard fired while operations remained in
flight. -/
theorem wait_quiescence_iff (inProg : Nat → Bool) (timeout : Option ℚ)
    (clock : Nat → ℚ) (fuel : Nat) (b : Bool)
    (h : wait_for_operations_to_complete inProg timeout clock fuel = some b) :
    b = true ↔ ∃ m, inProg m = false ∧
      ∀ j, j < m → inProg j = true ∧ timeout_exceeded timeout (clock j) = false := by
  rw [wait_loop_true_iff inProg timeout clock fuel 0 b h]
  constructor
  · rintro ⟨m, _, hm, hall⟩
    exact ⟨m, hm, fun j hj => hall j (Nat.zero_le j) hj⟩
  · rintro ⟨m, hm, hall⟩
    exact ⟨m, Nat.zero_le m, hm, fun j _ hj => hall j hj⟩

/-- Witness for `wait_quiescence_iff`: the event clears at the third
check, well before a 100-unit timeout, and the call returns `True`. -/
theorem wait_quiescence_iff_witness :
    wait_for_operations_to_complete (fun k : Nat => decide (k < 2)) (some 100)
        (fun k : Nat => (k : ℚ)) 10 = some true ∧
    (true = true ↔ ∃ m, (fun k : Nat => decide (k < 2)) m = false ∧
      ∀ j, j < m → (fun k : Nat => decide (k < 2)) j = true ∧
        timeout_exceeded (some 100) ((fun k : Nat => (k : ℚ)) j) = false) :=
  ⟨by decide,
    wait_quiescence_iff (fun k : Nat => decide (k < 2)) (some 100) (fun k : Nat => (k : ℚ))
      10 true (by decide)⟩

/-- With a falsy timeout (None or zero) the timeout guard never fires. -/
theorem timeout_exceeded_falsy (t : Option ℚ) (h : t = none ∨ t = some 0)
    (e : ℚ) : timeout_exceeded t e = false := by
  rcases h with h | h <;> subst h <;> simp [timeout_exceeded]

/-- C10: a timeout of zero (like None) is falsy in the guard
`if timeout and ...`, so the call never returns `False`: it blocks for
as long as the in-progress event stays set, however much time passes,
and returns `True` once a check observes the event clear. -/
theorem wait_timeout_zero_unbounded (inProg : Nat → Bool) (clock : Nat → ℚ)
    (t : Option ℚ) (h : t = none ∨ t = some 0) :
    (∀ fuel, wait_for_operations_to_complete inProg t clock fuel ≠ some false) ∧
    ((∀ k, inProg k = true) →
      ∀ fuel, wait_for_operations_to_complete inProg t clock fuel = none) ∧
    (∀ m, inProg m = false →
      wait_for_operations_to_complete inProg t clock (m + 1) = some true) := by
  have hex : ∀ e, timeout_exceeded t e = false := timeout_exceeded_falsy t h
  have hA : ∀ fuel k, wait_loop inProg t clock fuel k ≠ some false := by
    intro fuel
    induction fuel with
    | zero => intro k hk; simp [wait_loop] at hk
    | succ fuel ih =>
        intro k hk
        by_cases h1 : inProg k = false
        · simp [wait_loop, h1] at hk
        · simp [wait_loop, h1, hex (clock k)] at hk
          exact ih _ hk
  have hB : (∀ k, inProg k = true) →
      ∀ fuel k, wait_loop inProg t clock fuel k = none := by
    intro hall fuel
    induction fuel with
    | zero => intro k; rfl
    | succ fuel ih =>
        intro k
        simp [wait_loop, hall k, hex (clock k), ih (k + 1)]
  have hC : ∀ n k, inProg (k + n) = false →
      wait_loop inProg t clock (n + 1) k = some true := by
    intro n
    induction n with
    | zero => intro k hk; simp at hk; simp [wait_loop, hk]
    | succ n ih =>
        intro k hk
        by_cases h1 : inProg k = false
        · simp [wait_loop, h1]
        · have hk' : inProg (k + 1 + n) = false := by
            rw [show k + 1 + n = k + (n + 1) by omega]; exact hk
          rw [show wait_loop inProg t clock (n + 1 + 1) k =
              (if inProg k = false then some true
               else if timeout_exceeded t (clock k) = true then some false
               else wait_loop inProg t clock (n + 1) (k + 1)) from rfl,
            if_neg h1, if_neg (by simp [hex (clock k)]), ih (k + 1) hk']
  exact ⟨fun fuel => hA fuel 0, fun hall fuel => hB hall fuel 0,
    fun m hm => hC m 0 (by simpa using hm)⟩

/-- Witness for `wait_timeout_zero_unbounded` with a zero timeout and an
event that clears at the second check. -/
theorem wait_timeout_zero_unbounded_witness :
    ((some (0 : ℚ)) = none ∨ (some (0 : ℚ)) = some 0) ∧
    ((∀ fuel, wait_for_operations_to_complete (fun k : Nat => decide (k < 1)) (some 0)
        (fun k : Nat => (k : ℚ)) fuel ≠ some false) ∧
    ((∀ k, (fun k : Nat => decide (k < 1)) k = true) →
      ∀ fuel, wait_for_operations_to_complete (fun k : Nat => decide (k < 1)) (some 0)
        (fun k : Nat => (k : ℚ)) fuel = none) ∧
    (∀ m, (fun k : Nat => decide (k < 1)) m = false →
      wait_for_operations_to_complete (fun k : Nat => decide (k < 1)) (some 0)
        (fun k : Nat => (k : ℚ)) (m + 1) = some true)) :=
  ⟨Or.inr rfl,
    wait_timeout_zero_unbounded (fun k : Nat => decide (k < 1)) (fun k : Nat => (k : ℚ))
      (some 0) (Or.inr rfl)⟩
